import Mathlib

/-!
Verification of the bidirectional line-mapping engine of the hcli frontend.

The definitions below are shallow embeddings of the TypeScript sources:
- `renderNode`, `generatePhyContentWithMappings`, `finalContent`, `buildIndex`,
  `handleLineHover`, `isInHighlightedRange` from
  src/frontend/src/components/TwoPanelEditor.tsx;
- `updatePyhContent`, `applyPhyChanges` from the zustand store
  (src/frontend/src/hooks/useStore.ts and its extended variant);
- `handleSend` from src/frontend/src/components/SendButton.jsx;
- the record shapes from the frontend types module.
JavaScript `Map` objects are modelled as functions `Nat → Option _` (get returns
`undefined` ↦ `none`; `set` overwrites pointwise), and JavaScript truthiness of
optional strings (`if (sig)`) is modelled by `truthyStr`.
-/

namespace HCLI

/-- A line-mapping record as produced by `renderNode` in TwoPanelEditor.tsx
(`{pyhLine, pyLineRange, nodeId}`); `pyLineRange` is optional in the
`LineMapping` interface of the types module. -/
structure LineMapping where
  pyhLine : Nat
  pyLineRange : Option (Nat × Nat)
  nodeId : String
deriving DecidableEq, Repr

/-- A PHY AST chunk as consumed by `renderNode`: fields `id`, `signature`,
`description`, `line_range`, `children` (the `PyhChunk` shape of the types
module). Children form an ordered list. -/
inductive Node where
  | mk (id : String) (sig : Option String) (desc : Option String)
       (lineRange : Option (Nat × Nat)) (children : List Node)

/-- JavaScript truthiness of an optional string: `undefined` and `""` are falsy. -/
def truthyStr : Option String → Bool
  | none => false
  | some s => s != ""

/-- The indent prefix `"    ".repeat(indent)` used by `renderNode`. -/
def indentPad (n : Nat) : String :=
  String.join (List.replicate n "    ")

/-- The accumulating state of `generatePhyContentWithMappings`: the `lines`
array and the `lineMappings` array. -/
structure RenderState where
  lines : List String
  mappings : List LineMapping
deriving DecidableEq, Repr

/-- One `lines.push` of `renderNode` together with its conditional
`lineMappings.push`: the emitted line gets number `lines.length + 1`, and a
mapping is recorded exactly when the node carries a (truthy) `line_range`.
This captures the push-and-record step repeated three times in the source. -/
def emitLine (st : RenderState) (text : String) (lineRange : Option (Nat × Nat))
    (nodeId : String) : RenderState :=
  let lineNumber := st.lines.length + 1
  { lines := st.lines ++ [text]
    mappings :=
      match lineRange with
      | some r => st.mappings ++ [⟨lineNumber, some r, nodeId⟩]
      | none => st.mappings }

mutual

/-- Model of `renderNode` from TwoPanelEditor.tsx lines 30-79: emit the signature line
(indented), then the description line one level deeper (or at the node's own
level when there is no signature), recording a mapping for each emitted line
when the node has a `line_range`; then recurse into the children at
`indent + 1`. -/
def renderNode (node : Node) (indent : Nat) (st : RenderState) : RenderState :=
  match node with
  | .mk nodeId sig desc lineRange children =>
    let pad := indentPad indent
    let st1 :=
      if truthyStr sig then
        let stSig := emitLine st (pad ++ sig.getD "") lineRange nodeId
        if truthyStr desc then
          emitLine stSig (pad ++ "    " ++ desc.getD "") lineRange nodeId
        else stSig
      else if truthyStr desc then
        emitLine st (pad ++ desc.getD "") lineRange nodeId
      else st
    renderChildren children (indent + 1) st1

/-- The `for (const child of node.children ...)` loop of `renderNode`. -/
def renderChildren (nodes : List Node) (indent : Nat) (st : RenderState) :
    RenderState :=
  match nodes with
  | [] => st
  | c :: rest => renderChildren rest indent (renderNode c indent st)

end

/-- The shape of parsed PHY JSON as consumed by `generatePhyContentWithMappings`:
only the presence of `phy_chunks.main` matters there, so the optional chain
`phyData?.phy_chunks?.main` is collapsed into one optional root node. -/
structure PhyData where
  main : Option Node

/-- Model of `generatePhyContentWithMappings` from TwoPanelEditor.tsx lines 26-97.
`storeMain` is the store's `editor.pyhData?.phy_chunks?.main` optional chain;
`parsed` is the result of the platform primitive `JSON.parse(pyhContent)`
(`none` when parsing throws). When neither source yields a root, the function
returns empty `lines` and empty `lineMappings`. -/
def generatePhyContentWithMappings (storeMain : Option Node)
    (parsed : Option PhyData) : RenderState :=
  match storeMain with
  | some root => renderNode root 0 ⟨[], []⟩
  | none =>
    match parsed with
    | some phyData =>
      match phyData.main with
      | some root => renderNode root 0 ⟨[], []⟩
      | none => ⟨[], []⟩
    | none => ⟨[], []⟩

/-- Lines 99-103 of TwoPanelEditor.tsx: `finalPhyLines` falls back to the raw
`pyhContent.split('\n')` when the renderer produced no lines, and
`finalMappings` falls back to `editor.lineMappings || []` when the renderer
produced no mappings. -/
def finalContent (storeMain : Option Node) (parsed : Option PhyData)
    (pyhContent : String) (storeMappings : List LineMapping) :
    List String × List LineMapping :=
  let r := generatePhyContentWithMappings storeMain parsed
  let finalPhyLines := if r.lines.length > 0 then r.lines
    else pyhContent.splitOn "\n"
  let finalMappings := if r.mappings.length > 0 then r.mappings
    else storeMappings
  (finalPhyLines, finalMappings)

/-- One `pyToPyhLines.set(line, mapping.pyhLine)` iteration of the inner
`for (let line = start; line <= end; line++)` loop (lines 122-125),
unrolled over the remaining iteration `count`. -/
def revLoop (m : Nat → Option Nat) (h line count : Nat) : Nat → Option Nat :=
  match count with
  | 0 => m
  | Nat.succ n => revLoop (fun s => if s = line then some h else m s) h (line + 1) n

/-- One step of the `finalMappings.forEach` loop (lines 116-127): when the
mapping has a (truthy) `pyLineRange`, set the forward entry
`pyhLine ↦ pyLineRange` and set every source line of the inclusive range in the
reverse map. -/
def buildIndexStep (maps : (Nat → Option (Nat × Nat)) × (Nat → Option Nat))
    (m : LineMapping) : (Nat → Option (Nat × Nat)) × (Nat → Option Nat) :=
  match m.pyLineRange with
  | none => maps
  | some r =>
    (fun k => if k = m.pyhLine then some r else maps.1 k,
     revLoop maps.2 m.pyhLine r.1 (r.2 + 1 - r.1))

/-- The two maps `pyhToPyRanges` and `pyToPyhLines` built by the
`finalMappings.forEach` loop, iterating the mapping sequence once in order. -/
def buildIndex (ms : List LineMapping) :
    (Nat → Option (Nat × Nat)) × (Nat → Option Nat) :=
  ms.foldl buildIndexStep (fun _ => none, fun _ => none)

/-- Forward lookup `pyhToPyRanges.get`. -/
def sourceRangeFor (ms : List LineMapping) (h : Nat) : Option (Nat × Nat) :=
  (buildIndex ms).1 h

/-- Reverse lookup `pyToPyhLines.get`. -/
def humanLineFor (ms : List LineMapping) (s : Nat) : Option Nat :=
  (buildIndex ms).2 s

/-- Whether a mapping's (optional) source range covers source line `s`
inclusively. -/
def covers (m : LineMapping) (s : Nat) : Bool :=
  match m.pyLineRange with
  | some r => decide (r.1 ≤ s) && decide (s ≤ r.2)
  | none => false

/-- Declarative reading of the reverse map: the human line of the last mapping
in the sequence that covers `s`, if any. -/
def lastCovering : List LineMapping → Nat → Option Nat
  | [], _ => none
  | m :: ms, s =>
    match lastCovering ms s with
    | some h => some h
    | none => if covers m s then some m.pyhLine else none

theorem revLoop_apply (h s : Nat) :
    ∀ (count line : Nat) (m : Nat → Option Nat),
      revLoop m h line count s =
        if line ≤ s ∧ s < line + count then some h else m s := by
  intro count
  induction count with
  | zero =>
    intro line m
    rw [revLoop, if_neg]
    omega
  | succ n ih =>
    intro line m
    rw [revLoop, ih]
    by_cases h1 : line + 1 ≤ s ∧ s < line + 1 + n
    · rw [if_pos h1, if_pos (by omega)]
    · rw [if_neg h1]
      by_cases h2 : s = line
      · rw [if_pos h2, if_pos (by omega)]
      · rw [if_neg h2, if_neg (by omega)]

theorem foldl_rev_apply (s : Nat) :
    ∀ (ms : List LineMapping)
      (acc : (Nat → Option (Nat × Nat)) × (Nat → Option Nat)),
      (ms.foldl buildIndexStep acc).2 s =
        match lastCovering ms s with
        | some h => some h
        | none => acc.2 s := by
  intro ms
  induction ms with
  | nil => intro acc; rfl
  | cons m rest ih =>
    intro acc
    rw [List.foldl_cons, ih]
    simp only [lastCovering]
    cases hlc : lastCovering rest s with
    | some h => rfl
    | none =>
      cases hr : m.pyLineRange with
      | none => simp [buildIndexStep, covers, hr]
      | some r =>
        simp only [buildIndexStep, hr]
        rw [revLoop_apply]
        by_cases hc : r.1 ≤ s ∧ s ≤ r.2
        · have hcov : covers m s = true := by
            simp [covers, hr, hc.1, hc.2]
          rw [hcov, if_pos (by omega)]
          rfl
        · have hcov : covers m s = false := by
            simp only [covers, hr]
            rw [Bool.and_eq_false_iff]
            rcases Decidable.not_and_iff_or_not.mp hc with h' | h'
            · exact Or.inl (by simpa using h')
            · exact Or.inr (by simpa using h')
          rw [hcov, if_neg (by omega)]
          rfl

theorem humanLineFor_eq (ms : List LineMapping) (s : Nat) :
    humanLineFor ms s = lastCovering ms s := by
  unfold humanLineFor buildIndex
  rw [foldl_rev_apply]
  cases lastCovering ms s <;> rfl

theorem lastCovering_append (l₁ l₂ : List LineMapping) (s : Nat) :
    lastCovering (l₁ ++ l₂) s =
      match lastCovering l₂ s with
      | some h => some h
      | none => lastCovering l₁ s := by
  induction l₁ with
  | nil =>
    rw [List.nil_append]
    cases lastCovering l₂ s <;> rfl
  | cons m rest ih =>
    rw [List.cons_append]
    simp only [lastCovering]
    rw [ih]
    cases lastCovering l₂ s <;> cases lastCovering rest s <;> rfl

theorem lastCovering_of_not_covered (s : Nat) :
    ∀ (l : List LineMapping), (∀ m ∈ l, covers m s = false) →
      lastCovering l s = none := by
  intro l
  induction l with
  | nil => intro _; rfl
  | cons m rest ih =>
    intro h
    rw [lastCovering, ih (fun m' hm' => h m' (List.mem_cons_of_mem m hm'))]
    rw [h m (List.mem_cons_self m rest)]
    rfl

theorem lastCovering_eq_findRev (ms : List LineMapping) (s : Nat) :
    lastCovering ms s =
      (ms.reverse.find? (fun m => covers m s)).map (fun m => m.pyhLine) := by
  induction ms with
  | nil => rfl
  | cons m rest ih =>
    rw [List.reverse_cons, List.find?_append]
    simp only [lastCovering]
    rw [ih]
    cases rest.reverse.find? (fun m => covers m s) with
    | some x => rfl
    | none =>
      simp only [List.find?_singleton]
      by_cases hc : covers m s = true
      · rw [hc]
        rfl
      · have hc' : covers m s = false := by simpa using hc
        rw [hc']
        rfl

/-- Invariant of the render pass: the recorded human line numbers are strictly
increasing along the mapping array, and never exceed the number of emitted
lines. -/
def stOk (st : RenderState) : Prop :=
  (st.mappings.map (fun m => m.pyhLine)).Pairwise (· < ·) ∧
  ∀ m ∈ st.mappings, m.pyhLine ≤ st.lines.length

theorem emitLine_ok (st : RenderState) (text : String)
    (lineRange : Option (Nat × Nat)) (nodeId : String) (h : stOk st) :
    stOk (emitLine st text lineRange nodeId) := by
  obtain ⟨hpw, hbd⟩ := h
  cases lineRange with
  | none =>
    refine ⟨hpw, fun m hm => ?_⟩
    simp only [emitLine, List.length_append, List.length_singleton]
    exact Nat.le_trans (hbd m hm) (Nat.le_succ _)
  | some r =>
    constructor
    · simp only [emitLine, List.map_append, List.map_cons, List.map_nil]
      rw [List.pairwise_append]
      refine ⟨hpw, List.pairwise_singleton _ _, ?_⟩
      intro a ha b hb
      simp only [List.mem_singleton] at hb
      subst hb
      obtain ⟨m, hm, hma⟩ := List.mem_map.mp ha
      exact Nat.lt_succ_of_le (hma ▸ hbd m hm)
    · intro m hm
      simp only [emitLine, List.length_append, List.length_singleton]
      simp only [emitLine, List.mem_append, List.mem_singleton] at hm
      rcases hm with hm | hm
      · exact Nat.le_trans (hbd m hm) (Nat.le_succ _)
      · subst hm
        exact Nat.le_refl _

mutual

theorem renderNode_ok (n : Node) (indent : Nat) (st : RenderState)
    (h : stOk st) : stOk (renderNode n indent st) := by
  cases n with
  | mk nodeId sig desc lineRange children =>
    rw [renderNode]
    apply renderChildren_ok
    split
    · split
      · exact emitLine_ok _ _ _ _ (emitLine_ok _ _ _ _ h)
      · exact emitLine_ok _ _ _ _ h
    · split
      · exact emitLine_ok _ _ _ _ h
      · exact h

theorem renderChildren_ok (ns : List Node) (indent : Nat) (st : RenderState)
    (h : stOk st) : stOk (renderChildren ns indent st) := by
  cases ns with
  | nil => rw [renderChildren]; exact h
  | cons c rest =>
    rw [renderChildren]
    exact renderChildren_ok rest indent _ (renderNode_ok c indent st h)

end

/-- A diff record (`DiffChange` in the frontend types module). -/
structure DiffChange where
  type : String
  lineRange : Nat × Nat
  originalContent : String
  modifiedContent : String
  description : String
deriving DecidableEq, Repr

/-- The editor slice of the zustand store (`EditorState` in the types module,
with the optional `pyhData` PHY AST payload). -/
structure EditorState where
  pyhContent : String
  pyContent : String
  lineMappings : List LineMapping
  diffs : List DiffChange
  isEditing : Bool
  hasUnsavedChanges : Bool
  pyhData : Option PhyData

/-- A node of the file explorer tree (`FileNode` in the types module). -/
inductive FileNode where
  | mk (name : String) (type : String) (path : String)
       (children : List FileNode)

/-- The repository slice of the zustand store (`RepositoryState`). -/
structure RepositoryState where
  isConnected : Bool
  repoUrl : String
  branch : String
  files : List FileNode
  selectedFile : Option String
  currentDirectory : String

/-- The whole zustand store state (`AppState`). -/
structure AppState where
  repository : RepositoryState
  editor : EditorState
  isLoading : Bool
  error : Option String

/-- Model of `updatePyhContent` of the store: spread the previous editor state, replace
`pyhContent`, set `hasUnsavedChanges` to true. -/
def updatePyhContent (st : AppState) (content : String) : AppState :=
  { st with
      editor :=
        { st.editor with pyhContent := content, hasUnsavedChanges := true } }

/-- The outcome of the awaited backend call inside a store action: `success`
when `response.ok` held (and the body parsed), `failure` when the fetch threw
or `response.ok` was false (the thrown error's message). -/
inductive FetchOutcome where
  | success
  | failure (msg : String)

/-- Model of `applyPhyChanges` of the extended store: set `isLoading` and clear `error`
on entry; on success spread the previous editor state with
`hasUnsavedChanges := false` and `diffs := []`; on failure only record the
error message; both paths clear `isLoading`. The fetch itself is the external
rewriting collaborator, abstracted by the outcome. -/
def applyPhyChanges (st : AppState) (outcome : FetchOutcome) : AppState :=
  let started : AppState := { st with isLoading := true, error := none }
  match outcome with
  | .success =>
    { started with
        editor :=
          { started.editor with hasUnsavedChanges := false, diffs := [] }
        isLoading := false }
  | .failure msg => { started with error := some msg, isLoading := false }

/-- Model of `handleSend` from SendButton.jsx: `if (isDisabled || isLoading) return;`
then set the component's `isLoading`, await `onSend()`, and clear `isLoading`
in the `finally` block. The component's `isLoading` flag and the store state
after the call are returned; `onSend` is the apply pipeline passed in by the
caller. -/
def handleSend (isDisabled isLoading : Bool) (app : AppState)
    (onSend : AppState → AppState) : Bool × AppState :=
  if isDisabled || isLoading then (isLoading, app)
  else (false, onSend app)

/-- Which panel a hover event originates from (`'pyh' | 'py'`). -/
inductive Panel where
  | pyh
  | py
deriving DecidableEq

/-- Model of `handleLineHover` from TwoPanelEditor.tsx lines 164-175: hovering a PHY
line stores it as the hovered line; hovering a Python line stores the mapped
PHY line when the reverse map has a truthy entry, and otherwise leaves the
hovered line unchanged. -/
def handleLineHover (rev : Nat → Option Nat) (hoveredLine : Option Nat)
    (lineNumber : Nat) (panel : Panel) : Option Nat :=
  match panel with
  | .pyh => some lineNumber
  | .py =>
    match rev lineNumber with
    | some mappedPyhLine =>
      if mappedPyhLine = 0 then hoveredLine else some mappedPyhLine
    | none => hoveredLine

/-- The `onMouseEnter` guard of a PHY line (line 353):
`hasMapping && handleLineHover(lineNumber, 'pyh')` where `hasMapping` is
`pyhToPyRanges.has(lineNumber)`. -/
def onEnterPyh (fwd : Nat → Option (Nat × Nat)) (rev : Nat → Option Nat)
    (hoveredLine : Option Nat) (lineNumber : Nat) : Option Nat :=
  if (fwd lineNumber).isSome then
    handleLineHover rev hoveredLine lineNumber .pyh
  else hoveredLine

/-- The `onMouseEnter` guard of a Python line (line 476):
`hasMapping && handleLineHover(lineNumber, 'py')` where `hasMapping` is
`pyToPyhLines.has(lineNumber)`. -/
def onEnterPy (rev : Nat → Option Nat)
    (hoveredLine : Option Nat) (lineNumber : Nat) : Option Nat :=
  if (rev lineNumber).isSome then
    handleLineHover rev hoveredLine lineNumber .py
  else hoveredLine

/-- Model of `isInHighlightedRange` from TwoPanelEditor.tsx lines 435-442: a Python
line is highlighted when a (truthy) hovered line has a forward range and the
line number lies inclusively within it. -/
def isInHighlightedRange (fwd : Nat → Option (Nat × Nat))
    (hoveredLine : Option Nat) (lineNumber : Nat) : Bool :=
  match hoveredLine with
  | some h =>
    if h = 0 then false
    else
      match fwd h with
      | some r => decide (r.1 ≤ lineNumber) && decide (lineNumber ≤ r.2)
      | none => false
  | none => false

/-- Model of the `isHighlighted` check of a PHY line (line 337): `hoveredLine === lineNumber`. -/
def isHighlightedPyh (hoveredLine : Option Nat) (lineNumber : Nat) : Bool :=
  hoveredLine == some lineNumber

/-- The single-node tree of the rendering scenario: signature `def f(n):`,
description `doc`, source range `[1,3]`. -/
def c1Tree : Node :=
  .mk "node1" (some "def f(n):") (some "doc") (some (1, 3)) []

/-- C1 fails as stated: the rendered lines and the mapping sequence are as
claimed and the forward lookup of human line 1 is `[1,3]`, but the reverse
lookup of source line 2 is human line 2 (the description line, recorded last),
not human line 1 — the description mapping overwrites the signature mapping
for every source line of the shared range. -/
theorem c1_claim_counterexample :
    ¬ ((renderNode c1Tree 0 ⟨[], []⟩).lines = ["def f(n):", "    doc"] ∧
       (renderNode c1Tree 0 ⟨[], []⟩).mappings =
         [⟨1, some (1, 3), "node1"⟩, ⟨2, some (1, 3), "node1"⟩] ∧
       sourceRangeFor (renderNode c1Tree 0 ⟨[], []⟩).mappings 1 =
         some (1, 3) ∧
       humanLineFor (renderNode c1Tree 0 ⟨[], []⟩).mappings 2 = some 1) := by
  decide

/-- C1 (amended): rendering the single-node tree produces exactly the lines
`["def f(n):", "    doc"]` and the mappings `[{1,[1,3]},{2,[1,3]}]`; on the
built index the forward lookup of human line 1 is `[1,3]`, and the reverse
lookup of every source line 1, 2, 3 is human line 2, the last-recorded
(description) mapping's line. -/
theorem c1_render_scenario :
    (renderNode c1Tree 0 ⟨[], []⟩).lines = ["def f(n):", "    doc"] ∧
    (renderNode c1Tree 0 ⟨[], []⟩).mappings =
      [⟨1, some (1, 3), "node1"⟩, ⟨2, some (1, 3), "node1"⟩] ∧
    sourceRangeFor (renderNode c1Tree 0 ⟨[], []⟩).mappings 1 = some (1, 3) ∧
    humanLineFor (renderNode c1Tree 0 ⟨[], []⟩).mappings 1 = some 2 ∧
    humanLineFor (renderNode c1Tree 0 ⟨[], []⟩).mappings 2 = some 2 ∧
    humanLineFor (renderNode c1Tree 0 ⟨[], []⟩).mappings 3 = some 2 := by
  decide

/-- A parent whose range `[1,2]` strictly contains its child's range `[2,2]`:
rendering records the parent's mapping first, then the child's. -/
def c2OverlapTree : Node :=
  .mk "parent" (some "a") none (some (1, 2))
    [.mk "child" (some "b") none (some (2, 2)) []]

/-- C2 fails as stated: on the overlap tree the parent's recorded mapping has
range `[1,2]`, yet the reverse lookup gives human line 1 at source line 1 and
human line 2 at source line 2, because the later child mapping overwrote only
part of the parent's range. -/
theorem c2_claim_counterexample :
    ¬ (∀ m ∈ (renderNode c2OverlapTree 0 ⟨[], []⟩).mappings, ∀ s₁ s₂ : Nat,
        covers m s₁ = true → covers m s₂ = true →
        humanLineFor (renderNode c2OverlapTree 0 ⟨[], []⟩).mappings s₁ =
          humanLineFor (renderNode c2OverlapTree 0 ⟨[], []⟩).mappings s₂) := by
  intro hcl
  have hmem : (⟨1, some (1, 2), "parent"⟩ : LineMapping) ∈
      (renderNode c2OverlapTree 0 ⟨[], []⟩).mappings := by decide
  have h12 := hcl _ hmem 1 2 (by decide) (by decide)
  revert h12
  decide

/-- C2 (amended): for a recorded mapping with source range `[a,b]`, the
reverse lookup is constant over the range — it returns that mapping's human
line at every source line of `[a,b]` — provided no later mapping in the
sequence covers any source line of `[a,b]` (later overlapping mappings
overwrite part of the range, as the counterexample shows). -/
theorem c2_reverse_constant_on_range (l₁ l₂ : List LineMapping)
    (m : LineMapping) (a b : Nat) (hm : m.pyLineRange = some (a, b))
    (hlater : ∀ m' ∈ l₂, ∀ s, a ≤ s → s ≤ b → covers m' s = false) :
    ∀ s, a ≤ s → s ≤ b →
      humanLineFor (l₁ ++ m :: l₂) s = some m.pyhLine := by
  intro s hs1 hs2
  have h2 : lastCovering l₂ s = none :=
    lastCovering_of_not_covered s l₂ (fun m' hm' => hlater m' hm' s hs1 hs2)
  have hcov : covers m s = true := by simp [covers, hm, hs1, hs2]
  rw [humanLineFor_eq, lastCovering_append]
  simp [lastCovering, h2, hcov]

/-- Witness for the amended C2: in the single-node scenario's mapping list the
description mapping `{2,[1,3]}` is last, so the reverse lookup is `2` across
its whole range. -/
theorem c2_reverse_constant_on_range_witness :
    humanLineFor
      ([⟨1, some (1, 3), "node1"⟩] ++ ⟨2, some (1, 3), "node1"⟩ :: []) 1 =
      some 2 ∧
    humanLineFor
      ([⟨1, some (1, 3), "node1"⟩] ++ ⟨2, some (1, 3), "node1"⟩ :: []) 3 =
      some 2 :=
  ⟨c2_reverse_constant_on_range [⟨1, some (1, 3), "node1"⟩] []
      ⟨2, some (1, 3), "node1"⟩ 1 3 rfl
      (fun m' hm' => absurd hm' (List.not_mem_nil m')) 1 (by decide)
      (by decide),
   c2_reverse_constant_on_range [⟨1, some (1, 3), "node1"⟩] []
      ⟨2, some (1, 3), "node1"⟩ 1 3 rfl
      (fun m' hm' => absurd hm' (List.not_mem_nil m')) 3 (by decide)
      (by decide)⟩

/-- C3: the index build folds the mapping sequence once in order, inserting
every source line of each (truthy) range with that mapping's human line and
overwriting earlier entries, so the reverse lookup of any source line equals
the human line of the last mapping in the sequence that covers it (`find?` on
the reversed sequence), and `none` when no mapping covers it. -/
theorem c3_reverse_last_write_wins (ms : List LineMapping) (s : Nat) :
    humanLineFor ms s =
      (ms.reverse.find? (fun m => covers m s)).map (fun m => m.pyhLine) := by
  rw [humanLineFor_eq, lastCovering_eq_findRev]

/-- C4 fails as stated: with no usable PHY AST the renderer does return empty
lines and empty mappings, but the caller's mapping fallback is
`editor.lineMappings || []`, not the empty sequence — with a stale store
mapping present, displayed line 1 still has a mapping. -/
theorem c4_claim_counterexample :
    generatePhyContentWithMappings none none = ⟨[], []⟩ ∧
    (finalContent none none "hello" [⟨1, some (1, 1), "stale"⟩]).2 ≠ [] ∧
    humanLineFor (finalContent none none "hello"
      [⟨1, some (1, 1), "stale"⟩]).2 1 = some 1 := by
  decide

/-- C4 (amended): if the root tree is absent or malformed the renderer returns
empty lines and empty mappings, and the caller falls back to the raw text's
lines with the store's previously loaded `lineMappings` as the mapping
sequence; only when those are empty (the usual degenerate case) is the text a
fully unmapped blob, on which every forward and reverse lookup returns
nothing, so hover and diff features are no-ops rather than errors. -/
theorem c4_degenerate_fallback (content : String)
    (storeMappings : List LineMapping) :
    generatePhyContentWithMappings none none = ⟨[], []⟩ ∧
    (finalContent none none content storeMappings).1 =
      content.splitOn "\n" ∧
    (finalContent none none content storeMappings).2 = storeMappings ∧
    (∀ s, humanLineFor [] s = none) ∧
    (∀ h, sourceRangeFor [] h = none) :=
  ⟨rfl, rfl, rfl, fun _ => rfl, fun _ => rfl⟩

/-- C5: a successful apply clears the pending diffs and the unsaved-changes
flag; a failed apply leaves the entire editor slice (diffs included) and the
repository slice unchanged and only records the error message. -/
theorem c5_apply_roundtrip (st : AppState) (msg : String) :
    (applyPhyChanges st .success).editor.diffs = [] ∧
    (applyPhyChanges st .success).editor.hasUnsavedChanges = false ∧
    (applyPhyChanges st (.failure msg)).editor = st.editor ∧
    (applyPhyChanges st (.failure msg)).error = some msg ∧
    (applyPhyChanges st (.failure msg)).repository = st.repository :=
  ⟨rfl, rfl, rfl, rfl, rfl⟩

/-- C6: a submit issued while the component's `isLoading` flag is set (a first
apply still in flight) returns synchronously with the flag and the whole store
state unchanged, for every pending apply pipeline `onSend` — so nothing is
queued, nothing is cancelled, and the pending diffs are untouched. -/
theorem c6_concurrent_submit_rejected (isDisabled : Bool) (app : AppState)
    (onSend : AppState → AppState) :
    handleSend isDisabled true app onSend = (true, app) := by
  simp [handleSend]

/-- C7: hovering a mapped human line highlights exactly the source lines of
its inclusive range; hovering a reverse-mapped source line highlights exactly
the one mapped human line; the enter handlers leave the hover state unchanged
on unmapped lines, and with no hovered line both highlight predicates are
false everywhere (hover never faults — all projections are total). -/
theorem c7_hover_projection :
    (∀ (fwd : Nat → Option (Nat × Nat)) (rev : Nat → Option Nat)
        (hov : Option Nat) (L s e : Nat), L ≠ 0 → fwd L = some (s, e) →
        ∀ n, isInHighlightedRange fwd (onEnterPyh fwd rev hov L) n = true ↔
          s ≤ n ∧ n ≤ e) ∧
    (∀ (rev : Nat → Option Nat) (hov : Option Nat) (L h : Nat),
        rev L = some h → h ≠ 0 →
        ∀ n, isHighlightedPyh (onEnterPy rev hov L) n = true ↔ n = h) ∧
    (∀ (fwd : Nat → Option (Nat × Nat)) (rev : Nat → Option Nat)
        (hov : Option Nat) (L : Nat),
        fwd L = none → onEnterPyh fwd rev hov L = hov) ∧
    (∀ (rev : Nat → Option Nat) (hov : Option Nat) (L : Nat),
        rev L = none → onEnterPy rev hov L = hov) ∧
    (∀ (fwd : Nat → Option (Nat × Nat)) (n : Nat),
        isInHighlightedRange fwd none n = false) ∧
    (∀ n : Nat, isHighlightedPyh none n = false) := by
  refine ⟨?_, ?_, ?_, ?_, ?_, ?_⟩
  · intro fwd rev hov L s e hL hfwd n
    simp [onEnterPyh, handleLineHover, isInHighlightedRange, hfwd, hL]
  · intro rev hov L h hrev hh n
    have h1 : onEnterPy rev hov L = some h := by
      simp [onEnterPy, handleLineHover, hrev, hh]
    rw [h1]
    simp only [isHighlightedPyh, beq_iff_eq, Option.some.injEq]
    exact eq_comm
  · intro fwd rev hov L hfwd
    simp [onEnterPyh, hfwd]
  · intro rev hov L hrev
    simp [onEnterPy, hrev]
  · intro fwd n
    rfl
  · intro n
    rfl

/-- A concrete forward map: human line 1 covers source lines 2 to 4. -/
def demoFwd : Nat → Option (Nat × Nat) :=
  fun k => if k = 1 then some (2, 4) else none

/-- The matching concrete reverse map: source lines 2 to 4 map to human
line 1. -/
def demoRev : Nat → Option Nat :=
  fun s => if 2 ≤ s ∧ s ≤ 4 then some 1 else none

/-- Witness for C7 on the concrete one-mapping index. -/
theorem c7_hover_projection_witness :
    (isInHighlightedRange demoFwd (onEnterPyh demoFwd demoRev none 1) 3 =
        true ↔ 2 ≤ 3 ∧ 3 ≤ 4) ∧
    (isHighlightedPyh (onEnterPy demoRev none 3) 1 = true ↔ (1 : Nat) = 1) ∧
    onEnterPyh demoFwd demoRev none 5 = none ∧
    onEnterPy demoRev none 9 = none ∧
    isInHighlightedRange demoFwd none 3 = false ∧
    isHighlightedPyh none 3 = false :=
  ⟨c7_hover_projection.1 demoFwd demoRev none 1 2 4 (by decide) rfl 3,
   c7_hover_projection.2.1 demoRev none 3 1 rfl (by decide) 1,
   c7_hover_projection.2.2.1 demoFwd demoRev none 5 rfl,
   c7_hover_projection.2.2.2.1 demoRev none 9 rfl,
   c7_hover_projection.2.2.2.2.1 demoFwd 3,
   c7_hover_projection.2.2.2.2.2 3⟩

/-- C8: for every input tree the renderer's mapping sequence carries pairwise
distinct human line numbers (each rendered line is recorded at most once), so
the forward-map build meets no key collision. -/
theorem c8_mapping_lines_nodup (root : Node) :
    ((renderNode root 0 ⟨[], []⟩).mappings.map (fun m => m.pyhLine)).Nodup := by
  have h := renderNode_ok root 0 ⟨[], []⟩
    ⟨List.Pairwise.nil, fun m hm => absurd hm (List.not_mem_nil m)⟩
  exact List.Pairwise.imp (fun hab => Nat.ne_of_lt hab) h.1

/-- C9: a node with neither signature nor description emits no line of its
own and records no mapping — even when it carries a source line range — and
its children are still rendered, in order, one indent level deeper; in
particular a childless such node leaves the render state untouched. -/
theorem c9_invisible_node (nodeId : String) (lineRange : Option (Nat × Nat))
    (children : List Node) (indent : Nat) (st : RenderState) :
    renderNode (.mk nodeId none none lineRange children) indent st =
      renderChildren children (indent + 1) st ∧
    renderNode (.mk nodeId none none lineRange []) indent st = st := by
  constructor
  · simp [renderNode, truthyStr]
  · simp [renderNode, renderChildren, truthyStr]

/-- C10: `updatePyhContent` sets exactly `pyhContent` and the unsaved-changes
flag; every other editor field, the repository slice, and the app-level flags
are unchanged. -/
theorem c10_update_pyh_frame (st : AppState) (content : String) :
    (updatePyhContent st content).editor.pyhContent = content ∧
    (updatePyhContent st content).editor.hasUnsavedChanges = true ∧
    (updatePyhContent st content).editor.pyContent = st.editor.pyContent ∧
    (updatePyhContent st content).editor.lineMappings =
      st.editor.lineMappings ∧
    (updatePyhContent st content).editor.diffs = st.editor.diffs ∧
    (updatePyhContent st content).editor.isEditing = st.editor.isEditing ∧
    (updatePyhContent st content).editor.pyhData = st.editor.pyhData ∧
    (updatePyhContent st content).repository = st.repository ∧
    (updatePyhContent st content).isLoading = st.isLoading ∧
    (updatePyhContent st content).error = st.error :=
  ⟨rfl, rfl, rfl, rfl, rfl, rfl, rfl, rfl, rfl, rfl⟩

end HCLI
